import Mathlib

/-!
Verification of the indicator / screening logic of the stock_analizer
repository.  Price, volume and indicator values are modelled as rationals
(reals where a square root occurs); a pandas `NaN` entry is modelled as
`none : Option _`.  Float comparisons against `NaN` are false, so the
`Option`-valued comparison helpers below return `false` whenever either
side is `none`.
-/

set_option autoImplicit false
set_option maxRecDepth 40000

namespace StockAnalizer

/-- `a < b` on possibly-undefined values; a comparison with an undefined
(`NaN`) operand is false, as for IEEE floats. -/
def oLT {α : Type} [LinearOrder α] : Option α → Option α → Bool
  | some a, some b => decide (a < b)
  | _, _ => false

/-- `a ≤ b` on possibly-undefined values; false when an operand is undefined. -/
def oLE {α : Type} [LinearOrder α] : Option α → Option α → Bool
  | some a, some b => decide (a ≤ b)
  | _, _ => false

/-- Python truthiness of a float cell: `NaN` is truthy, `0.0` is falsy,
every other value is truthy. -/
def truthy {α : Type} [Zero α] [DecidableEq α] : Option α → Bool
  | none => true
  | some x => decide (x ≠ 0)

/-- Mean of a list of rationals (`Series.mean` on an all-defined series). -/
def listMean (xs : List ℚ) : ℚ := xs.sum / xs.length

/-- Entry `i` of `series.rolling(window=w).mean()` over an all-defined
series: undefined until `w` observations exist, else the arithmetic mean
of entries `i+1-w .. i`. -/
def smaAt (w : ℕ) (xs : List ℚ) (i : ℕ) : Option ℚ :=
  if i + 1 < w then none
  else some (((xs.drop (i + 1 - w)).take w).sum / (w : ℚ))

/-- Mean of the trailing `w` entries (`series.tail(w).mean()`). -/
def tailMean (w : ℕ) (xs : List ℚ) : ℚ := (xs.drop (xs.length - w)).sum / (w : ℚ)

/-! ### CANSLIM screen (`canslim_strategy.py`) -/

/-- `volume_spike(df, window_short, window_long, pct_increase)`:
`recent = volume.tail(w_short).mean()`,
`prior = volume.tail(w_long).head(w_long - w_short).mean()`,
pass iff `(recent - prior) / prior * 100 >= pct_increase`.
The division is IEEE: `prior = 0` gives `inf` (≥ pct, pass) for
`recent > 0` and `nan`/`-inf` (fail) otherwise. -/
def volume_spike (volumes : List ℚ) (wShort wLong : ℕ) (pct : ℚ) : Bool :=
  if volumes.length < wLong then false
  else
    let recent := tailMean wShort volumes
    let prior := ((volumes.drop (volumes.length - wLong)).take (wLong - wShort)).sum /
      ((wLong - wShort : ℕ) : ℚ)
    if prior = 0 then decide (0 < recent)
    else decide (pct ≤ (recent - prior) / prior * 100)

/-- Baseline mean actually used by `volume_spike` with the default windows:
the 30 bars preceding the most recent 20 (`volume.tail(50).head(30)`). -/
def prior30Mean (volumes : List ℚ) : ℚ :=
  ((volumes.drop (volumes.length - 50)).take 30).sum / (30 : ℚ)

/-- `market_trend_ok`: benchmark (SPY) series present, at least 200 bars,
and 50-day SMA above 200-day SMA at the latest bar. -/
def market_trend_ok (benchmark : Option (List ℚ)) : Bool :=
  match benchmark with
  | none => false
  | some closes =>
    if closes.length < 200 then false
    else oLT (smaAt 200 closes (closes.length - 1)) (smaAt 50 closes (closes.length - 1))

/-- `canslim_screen`: if the market gate fails, return `[]` before any
per-instrument work; otherwise collect the non-`None` per-ticker results.
The per-ticker evaluation (network fetches plus `screen_ticker_with_df_fast`)
is abstracted as the function argument `screen`. -/
def canslim_screen {ρ : Type} (benchmark : Option (List ℚ)) (tickers : List String)
    (screen : String → Option ρ) : List ρ :=
  if market_trend_ok benchmark then tickers.filterMap screen else []

/-! ### CANSLIM institutional-sponsorship gate -/

/-- The fixed reputable-institution name list from `institutional_holders`
(duplicate entries included, as in the source). -/
def reputable_names : List String :=
  ["Vanguard", "Blackrock", "State Street", "Fidelity", "T. Rowe", "Invesco",
   "Morgan Stanley", "JPMORGAN", "Bank of America", "Wellington", "Geode",
   "Northern Trust", "Goldman Sachs", "UBS", "Franklin", "Charles Schwab",
   "Capital Group", "Dodge & Cox", "Massachusetts Financial", "FMR", "FIL LTD",
   "Price (T.Rowe)", "Ameriprise", "Alliancebernstein", "Fundsmith", "NORGES BANK",
   "Cohen & Steers", "Parnassus", "Susquehanna", "Victory Capital", "Apg Asset Management",
   "Hotchkis & Wiley", "Polen Capital", "Kayne Anderson", "Leonard Green", "Renaissance Technologies",
   "State Farm", "Aristotle Capital", "First Eagle", "Boston Partners", "Slate Path Capital",
   "Durable Capital", "Artisan Partners", "Brown Advisory", "Barrow, Hanley", "Harris Associates",
   "Primecap", "Fundsmith", "Impax Asset", "Pictet Asset", "Amundi", "Royal Bank of Canada",
   "Bank Of New York Mellon", "Fundsmith Investment", "Fundsmith LLP", "Fundsmith Investment Services"]

/-- `needle` starts `hay` (character-wise equality test). -/
def leadsChars : List Char → List Char → Bool
  | [], _ => true
  | _ :: _, [] => false
  | a :: as, b :: bs => a == b && leadsChars as bs

/-- Python's substring test `needle in hay` on character lists. -/
def occursInChars (needle : List Char) : List Char → Bool
  | [] => needle.isEmpty
  | c :: rest => leadsChars needle (c :: rest) || occursInChars needle rest

/-- ASCII lowercase of one character (`str.lower()`; the reputable-name
list and holder names in scope are ASCII). -/
def lowerChar (c : Char) : Char :=
  if 65 ≤ c.toNat ∧ c.toNat ≤ 90 then Char.ofNat (c.toNat + 32) else c

/-- `rep.lower() in str(name).lower()`. -/
def holder_matches (rep holder : String) : Bool :=
  occursInChars (rep.toList.map lowerChar) (holder.toList.map lowerChar)

/-- `holders['Value'].sum()`: aggregate institutional holding value. -/
def total_value (holders : List (String × ℚ)) : ℚ := (holders.map Prod.snd).sum

/-- `reputable_count` from `institutional_holders`: the number of distinct
entries of `reputable_names` that match (case-insensitive substring) at
least one holder name. -/
def reputable_count (holders : List (String × ℚ)) : ℕ :=
  ((reputable_names.filter (fun rep => holders.any (fun h => holder_matches rep h.1))).dedup).length

/-- The institutional-sponsorship conjuncts of the CANSLIM pass condition in
`screen_ticker_with_df_fast`: total value at least $1B and at least 2
reputable names matched. -/
def institutional_gate (holders : List (String × ℚ)) : Bool :=
  decide (1000000000 ≤ total_value holders) && decide (2 ≤ reputable_count holders)

/-- Modelled from the spec's words for comparison: "at least 2 holders drawn
from a fixed reputable-institution name list" — counts holders, not list
entries. -/
def claimed_institutional_gate (holders : List (String × ℚ)) : Prop :=
  1000000000 ≤ total_value holders ∧
    2 ≤ (holders.filter (fun h => reputable_names.any (fun rep => holder_matches rep h.1))).length

/-! ### Stage 2 trend template (`stage2.py`) -/

/-- `data.diff()` without its leading `NaN`: `diffs xs [i] = xs[i+1] - xs[i]`. -/
def diffs (xs : List ℚ) : List ℚ := List.zipWith (fun a b => a - b) xs.tail xs

/-- `delta.where(delta > 0, 0)`: positive deltas, zero elsewhere; the leading
`NaN` of `diff()` compares false against `0` and is also replaced by `0`. -/
def gains (xs : List ℚ) : List ℚ :=
  0 :: (diffs xs).map (fun d => if 0 < d then d else 0)

/-- `(-delta).where(delta < 0, 0)` analogue for losses. -/
def losses (xs : List ℚ) : List ℚ :=
  0 :: (diffs xs).map (fun d => if d < 0 then -d else 0)

/-- Entry `i` of the hand-rolled RSI of `stage2.py`:
`rs = gain.rolling(w).mean() / loss.rolling(w).mean()`,
`rsi = 100 - 100/(1+rs)`.  IEEE division: `0/0` is `NaN` (undefined) and
`g/0` with `g > 0` is `+inf`, for which `100 - 100/(1+rs)` is `100`. -/
def rsiAt (xs : List ℚ) (window i : ℕ) : Option ℚ :=
  match smaAt window (gains xs) i, smaAt window (losses xs) i with
  | some g, some l =>
    if l = 0 then (if g = 0 then none else some 100)
    else some (100 - 100 / (1 + g / l))
  | _, _ => none

/-- Minimum of a close series (`Series.min()`, series nonempty in use). -/
def listMin : List ℚ → ℚ
  | [] => 0
  | x :: xs => xs.foldl min x

/-- Maximum of a close series (`Series.max()`). -/
def listMax : List ℚ → ℚ
  | [] => 0
  | x :: xs => xs.foldl max x

/-- Gate 3 of `check_trend_template`:
`hist['200_MA'].iloc[-1] > hist['200_MA'].iloc[-5]` — the fifth-from-last
SMA entry, i.e. the value four bars before the latest. -/
def trendGate3 (closes : List ℚ) : Bool :=
  oLT (smaAt 200 closes (closes.length - 5)) (smaAt 200 closes (closes.length - 1))

/-- `check_trend_template` of `stage2.py` applied to the fetched close
series: the eight sequential gates, short-circuiting to `False`. -/
def check_trend_template (closes : List ℚ) : Bool :=
  if closes.isEmpty then false
  else
    let n := closes.length
    let c := closes.getD (n - 1) 0
    match smaAt 50 closes (n - 1), smaAt 150 closes (n - 1), smaAt 200 closes (n - 1),
        rsiAt closes 14 (n - 1) with
    | some m50, some m150, some m200, some r =>
      if m150 < c ∧ m200 < c then
        if m200 < m150 then
          if trendGate3 closes then
            if m150 < m50 ∧ m200 < m50 then
              if m50 < c then
                if 13 / 10 * listMin closes ≤ c then
                  if 3 / 4 * listMax closes ≤ c then
                    if r < 70 then false else true
                  else false
                else false
              else false
            else false
          else false
        else false
      else false
    | _, _, _, _ => false

/-- Close series on which the claimed and the implemented gate-3 comparison
disagree: the 200-SMA at the last bar is above its value five bars earlier
but below its value four bars earlier. -/
def stage2CE : List ℚ :=
  70 :: (List.replicate 4 110 ++ (List.replicate 199 100 ++ [120]))

/-! ### EMA and MACD (`bora_strategy.py`, `buy_sell_signal.py`) -/

/-- Tail of `Series.ewm(span, adjust=False).mean()` given the previous
smoothed value `y`: each step is `alpha * x + (1 - alpha) * y`. -/
def ewmaFrom (alpha : ℚ) (y : ℚ) : List ℚ → List ℚ
  | [] => []
  | x :: xs =>
    let y' := alpha * x + (1 - alpha) * y
    y' :: ewmaFrom alpha y' xs

/-- `Series.ewm(span=span, adjust=False).mean()`: seeded by the first
observation, smoothing factor `2/(span+1)`. -/
def ewma (span : ℕ) : List ℚ → List ℚ
  | [] => []
  | x :: xs => x :: ewmaFrom (2 / ((span : ℚ) + 1)) x xs

/-- `MACD = EMA_12 - EMA_26` column of `calculate_macd`. -/
def macdCol (closes : List ℚ) : List ℚ :=
  List.zipWith (fun a b => a - b) (ewma 12 closes) (ewma 26 closes)

/-- `Signal Line = MACD.ewm(span=9, adjust=False).mean()`. -/
def signalLineCol (closes : List ℚ) : List ℚ := ewma 9 (macdCol closes)

/-! ### Bollinger Bands (`buy_sell_signal.py`) -/

/-- Entry `i` of `series.rolling(w).var(ddof=1)` over an all-defined series
(sample variance of the trailing `w` entries once the window is full). -/
def sampleVarAt (w : ℕ) (xs : List ℚ) (i : ℕ) : Option ℚ :=
  if i + 1 < w then none
  else some ((((xs.drop (i + 1 - w)).take w).map
    (fun x => (x - listMean ((xs.drop (i + 1 - w)).take w)) ^ 2)).sum / ((w : ℚ) - 1))

/-- Entry `i` of `series.rolling(w).std()` (sample standard deviation,
real-valued because of the square root). -/
noncomputable def rollingStdAt (w : ℕ) (xs : List ℚ) (i : ℕ) : Option ℝ :=
  (sampleVarAt w xs i).map (fun v => Real.sqrt (v : ℝ))

/-- Entry `i` of the `Bollinger Upper` column:
`rolling_mean + rolling_std * no_of_std` with window 20 and 2 standard
deviations. -/
noncomputable def bollingerUpperAt (closes : List ℚ) (i : ℕ) : Option ℝ :=
  match smaAt 20 closes i, rollingStdAt 20 closes i with
  | some m, some s => some ((m : ℝ) + s * 2)
  | _, _ => none

/-- Entry `i` of the `Bollinger Lower` column: `rolling_mean - rolling_std * 2`. -/
noncomputable def bollingerLowerAt (closes : List ℚ) (i : ℕ) : Option ℝ :=
  match smaAt 20 closes i, rollingStdAt 20 closes i with
  | some m, some s => some ((m : ℝ) - s * 2)
  | _, _ => none

/-! ### Buy/Sell evaluator (`signal_strategy` of `buy_sell_signal.py`) -/

/-- One row of the indicator frame handed to `signal_strategy`; `none`
models a `NaN` cell. -/
structure SigRow where
  close : Option ℚ
  bollingerLower : Option ℚ
  bollingerUpper : Option ℚ
  rsi : Option ℚ
  macd : Option ℚ
  signalLine : Option ℚ
  stochK : Option ℚ
  psar : Option ℚ
  movingAvg200 : Option ℚ
  avgVolume : Option ℚ
  volume : Option ℚ

/-- `if moving_avg_200 and price < moving_avg_200: return 'Hold'`
(`NaN` is truthy, but a comparison against it is false). -/
def trendHold (r : SigRow) : Bool :=
  truthy r.movingAvg200 && oLT r.close r.movingAvg200

/-- `if pd.notna(avg_volume) and volume < avg_volume * 1.2: return 'Hold'`. -/
def volumeHold (r : SigRow) : Bool :=
  r.avgVolume.isSome && oLT r.volume (r.avgVolume.map (fun v => v * (12 / 10)))

/-- The Buy branch: the `pd.notna` guard on close, lower band and RSI,
then `price <= lower_band*(1+prox) and rsi > 30 and %K < 20 and price > psar`. -/
noncomputable def buyCond (r : SigRow) (prox : ℝ) : Bool :=
  r.close.isSome && r.bollingerLower.isSome && r.rsi.isSome &&
    oLE (r.close.map (fun q => (q : ℝ))) (r.bollingerLower.map (fun b => (b : ℝ) * (1 + prox))) &&
    oLT (some (30 : ℚ)) r.rsi && oLT r.stochK (some 20) && oLT r.psar r.close

/-- The Sell branch: the `pd.notna` guard on close, upper band, RSI, MACD
and signal line, then `price >= upper_band*(1-prox) and rsi < 70 and
(macd < signal_line or (%K > 80 and price < psar))`. -/
noncomputable def sellCond (r : SigRow) (prox : ℝ) : Bool :=
  r.close.isSome && r.bollingerUpper.isSome && r.rsi.isSome && r.macd.isSome &&
    r.signalLine.isSome &&
    oLE (r.bollingerUpper.map (fun b => (b : ℝ) * (1 - prox))) (r.close.map (fun q => (q : ℝ))) &&
    oLT r.rsi (some 70) &&
    (oLT r.macd r.signalLine || (oLT (some (80 : ℚ)) r.stochK && oLT r.close r.psar))

/-- `check_signal(row)` inside `signal_strategy`. -/
noncomputable def check_signal (r : SigRow) (prox : ℝ) : String :=
  if trendHold r then "Hold"
  else if volumeHold r then "Hold"
  else if buyCond r prox then "Buy"
  else if sellCond r prox then "Sell"
  else "Hold"

/-- `Close.pct_change()`: leading `NaN`, then `close[i]/close[i-1] - 1`.
A zero or `NaN` denominator yields `inf`/`NaN`; either poisons any rolling
standard deviation window containing it, so both are modelled as `none`. -/
def pctChange : List (Option ℚ) → List (Option ℚ)
  | [] => []
  | c :: cs =>
    none :: List.zipWith
      (fun a b =>
        match a, b with
        | some x, some y => if y = 0 then none else some (x / y - 1)
        | _, _ => none)
      cs (c :: cs)

/-- `pct_change().rolling(window=10).std().iloc[-1]` squared: the sample
variance of the last 10 percent changes, defined only when the series has
at least 10 entries, all defined. -/
def var10Last (cs : List (Option ℚ)) : Option ℚ :=
  let pc := pctChange cs
  if pc.length < 10 then none
  else
    let w := pc.drop (pc.length - 10)
    if w.all Option.isSome then
      let vals := w.reduceOption
      some ((vals.map (fun x => (x - listMean vals) ^ 2)).sum / 9)
    else none

/-- `proximity_percentage = min(0.02, pct_change.rolling(10).std().iloc[-1] * 1.5)`;
Python's `min` returns `0.02` when the standard deviation is `NaN`. -/
noncomputable def proximityOf (cs : List (Option ℚ)) : ℝ :=
  match var10Last cs with
  | none => 2 / 100
  | some v => min (2 / 100) (Real.sqrt (v : ℝ) * (3 / 2))

/-- `signal_strategy`: the `Signal` column, `check_signal` applied to every
row with the proximity taken from the latest close volatility. -/
noncomputable def signal_strategy (rows : List SigRow) : List String :=
  rows.map (fun r => check_signal r (proximityOf (rows.map SigRow.close)))

/-- The `Signal` value at the latest bar (`.iloc[-1]`). -/
noncomputable def latestSignal (rows : List SigRow) : Option String :=
  (signal_strategy rows).getLast?

/-- Modelled from the spec's words: the claimed Buy characterization —
all referenced indicators defined, band/RSI/%K/PSAR conditions, trend
filter `close ≥ 200-day SMA`, and volume confirmation. -/
def claimedBuy (r : SigRow) (prox : ℝ) : Prop :=
  ∃ c lb rs k ps m av v,
    r.close = some c ∧ r.bollingerLower = some lb ∧ r.rsi = some rs ∧
    r.stochK = some k ∧ r.psar = some ps ∧ r.movingAvg200 = some m ∧
    r.avgVolume = some av ∧ r.volume = some v ∧
    (c : ℝ) ≤ (lb : ℝ) * (1 + prox) ∧ 30 < rs ∧ k < 20 ∧ ps < c ∧ m ≤ c ∧
    av * (12 / 10) ≤ v

/-- Modelled from the spec's words: the claimed Sell preconditions — close,
upper band, RSI, MACD, signal line, %K and PSAR defined, volume at least
1.2 times its 20-day average, and the Sell comparisons. -/
def claimedSell (r : SigRow) (prox : ℝ) : Prop :=
  ∃ c ub rs mc sl k ps av v,
    r.close = some c ∧ r.bollingerUpper = some ub ∧ r.rsi = some rs ∧
    r.macd = some mc ∧ r.signalLine = some sl ∧ r.stochK = some k ∧
    r.psar = some ps ∧ r.avgVolume = some av ∧ r.volume = some v ∧
    av * (12 / 10) ≤ v ∧
    (ub : ℝ) * (1 - prox) ≤ (c : ℝ) ∧ rs < 70 ∧ (mc < sl ∨ (80 < k ∧ c < ps))

/-- The Buy characterization actually implemented: band/RSI/%K/PSAR
conditions with the trend filter applying only to a defined, nonzero
200-day SMA and the volume filter only to a defined average volume. -/
def amendedBuy (r : SigRow) (prox : ℝ) : Prop :=
  ∃ c lb rs k ps,
    r.close = some c ∧ r.bollingerLower = some lb ∧ r.rsi = some rs ∧
    r.stochK = some k ∧ r.psar = some ps ∧
    (c : ℝ) ≤ (lb : ℝ) * (1 + prox) ∧ 30 < rs ∧ k < 20 ∧ ps < c ∧
    (∀ m, r.movingAvg200 = some m → m ≠ 0 → m ≤ c) ∧
    (∀ av v, r.avgVolume = some av → r.volume = some v → av * (12 / 10) ≤ v)

/-- A sell setup below the 200-day SMA: every claimed Sell precondition
holds, yet the trend filter returns Hold first. -/
def rowSellBlocked : SigRow :=
  { close := some 100, bollingerLower := some 10, bollingerUpper := some 100,
    rsi := some 50, macd := some (-1), signalLine := some 0, stochK := some 50,
    psar := some 50, movingAvg200 := some 200, avgVolume := some 100,
    volume := some 200 }

/-- A buy setup whose 200-day moving average is undefined (`NaN`): the
implementation still emits Buy. -/
def rowBuyNoMa : SigRow :=
  { close := some 100, bollingerLower := some 100, bollingerUpper := some 200,
    rsi := some 50, macd := some (-1), signalLine := some 0, stochK := some 10,
    psar := some 90, movingAvg200 := none, avgVolume := some 100,
    volume := some 200 }

/-- A buy setup with every indicator defined and all filters passing. -/
def rowBuyOk : SigRow :=
  { close := some 100, bollingerLower := some 100, bollingerUpper := some 200,
    rsi := some 50, macd := some (-1), signalLine := some 0, stochK := some 10,
    psar := some 90, movingAvg200 := some 90, avgVolume := some 100,
    volume := some 200 }

/-! ### Golden Cross (`golden_cross_strategy.py`) -/

/-- The price frame handed to `detect_golden_cross`: a datetime index
(calendar day numbers) and a close column, plus the columns the function
writes into the caller's frame. -/
structure GCFrame where
  times : List ℤ
  close : List ℚ
  ma50 : Option (List (Option ℚ)) := none
  ma200 : Option (List (Option ℚ)) := none
  signal : Option (List ℤ) := none
  cross : Option (List (Option ℤ)) := none

/-- Row indices surviving `df.dropna(subset=["MA50","MA200"])`. -/
def keepIdx (closes : List ℚ) : List ℕ :=
  (List.range closes.length).filter
    (fun i => (smaAt 50 closes i).isSome && (smaAt 200 closes i).isSome)

/-- One entry of the `Signal` column: `(MA50 > MA200).astype(int)`. -/
def gcSigf (closes : List ℚ) (i : ℕ) : ℤ :=
  if oLT (smaAt 200 closes i) (smaAt 50 closes i) then 1 else 0

/-- The `Signal` column on the rows surviving `dropna`. -/
def gcSig (closes : List ℚ) : List ℤ := (keepIdx closes).map (gcSigf closes)

/-- The `Cross = Signal.diff()` column: leading `NaN`, then consecutive
signal differences. -/
def gcCross (closes : List ℚ) : List (Option ℤ) :=
  none :: List.zipWith (fun a b => some (a - b)) (gcSig closes).tail (gcSig closes)

/-- The datetime index of the rows surviving `dropna`. -/
def gcTimes (f : GCFrame) : List ℤ := (keepIdx f.close).map (fun i => f.times.getD i 0)

/-- `detect_golden_cross(df)` with `datetime.now()` abstracted as `now`:
returns the detection result together with the caller's frame after the
call (the function assigns MA columns, drops rows in place, and assigns
`Signal` and `Cross` columns).  `Cross == 1` selects day-over-day `0→1`
transitions of the boolean `MA50 > MA200` indicator, and the cutoff is
seven calendar days before `now`. -/
def detect_golden_cross (f : GCFrame) (now : ℤ) : Bool × GCFrame :=
  if f.close.length < 200 then (false, f)
  else
    (((gcTimes f).zip (gcCross f.close)).any
        (fun p => decide (now - 7 ≤ p.1) && p.2 == some 1),
     { times := gcTimes f, close := (keepIdx f.close).map (fun i => f.close.getD i 0),
       ma50 := some ((keepIdx f.close).map (smaAt 50 f.close)),
       ma200 := some ((keepIdx f.close).map (smaAt 200 f.close)),
       signal := some (gcSig f.close), cross := some (gcCross f.close) })

/-- The claimed characterization: the boolean `MA50 > MA200` indicator
transitions from 0 to 1 on some bar whose timestamp is within the trailing
seven days of the evaluation time. -/
def crossInWindow (times : List ℤ) (closes : List ℚ) (now : ℤ) : Prop :=
  ∃ i, 200 ≤ i ∧ i < closes.length ∧
    oLT (smaAt 200 closes i) (smaAt 50 closes i) = true ∧
    oLT (smaAt 200 closes (i - 1)) (smaAt 50 closes (i - 1)) = false ∧
    now - 7 ≤ times.getD i 0

/-! ### Frames mutated in place (`bollinger_bands`, `compute_indicators`) -/

/-- The frame handed to `bollinger_bands`; the three columns it writes are
absent (`none`) until assigned. -/
structure BSFrame where
  close : List ℚ
  bollingerUpper : Option (List (Option ℝ)) := none
  bollingerLower : Option (List (Option ℝ)) := none
  rollingMean : Option (List (Option ℚ)) := none

/-- `bollinger_bands(data)`: writes the three columns into `data` itself and
returns it; the pair is (returned frame, caller's frame after the call). -/
noncomputable def bollinger_bands (d : BSFrame) : BSFrame × BSFrame :=
  let d' := { d with
    bollingerUpper := some ((List.range d.close.length).map (bollingerUpperAt d.close)),
    bollingerLower := some ((List.range d.close.length).map (bollingerLowerAt d.close)),
    rollingMean := some ((List.range d.close.length).map (smaAt 20 d.close)) }
  (d', d')

/-- The frame handed to `compute_indicators` of `bora_strategy.py`. -/
structure BoraFrame where
  close : List ℚ
  sma200 : Option (List (Option ℚ)) := none
  ema21 : Option (List ℚ) := none
  ema50 : Option (List ℚ) := none

/-- `compute_indicators(df)`: copies the frame (`df = df.copy()`) before
adding columns, so the caller's frame (second component) is untouched. -/
def compute_indicators (d : BoraFrame) : BoraFrame × BoraFrame :=
  let c := { d with
    sma200 := some ((List.range d.close.length).map (smaAt 200 d.close)),
    ema21 := some (ewma 21 d.close),
    ema50 := some (ewma 50 d.close) }
  (c, d)

/-- Concrete volume series separating the two baselines: thirty bars of
100 followed by twenty bars of 130. -/
def vol50CE : List ℚ := List.replicate 30 100 ++ List.replicate 20 130

/-- Holder table whose single holder name matches two reputable-list
entries. -/
def holdersCE : List (String × ℚ) := [("Vanguard Blackrock Fund", 2000000000)]

/-! ## Theorems -/

theorem two_le_length_of_ne {α : Type} {m : List α} {a b : α}
    (ha : a ∈ m) (hb : b ∈ m) (hab : a ≠ b) : 2 ≤ m.length := by
  match m with
  | [] => cases ha
  | [x] =>
    rw [List.mem_singleton] at ha hb
    exact absurd (ha.trans hb.symm) hab
  | x :: y :: t => simp only [List.length_cons]; omega

theorem exists_pair_of_two_le_dedup {α : Type} [DecidableEq α] {l : List α}
    (h : 2 ≤ l.dedup.length) : ∃ a b, a ∈ l.dedup ∧ b ∈ l.dedup ∧ a ≠ b := by
  match hd : l.dedup with
  | [] => rw [hd] at h; simp at h
  | [x] => rw [hd] at h; simp at h
  | a :: b :: t =>
    have hnd : (a :: b :: t).Nodup := hd ▸ l.nodup_dedup
    have hab : a ≠ b := by
      intro hab
      exact (List.nodup_cons.1 hnd).1 (hab ▸ List.mem_cons_self b t)
    exact ⟨a, b, by simp [hd], by simp [hd], hab⟩

/-- C4: whenever the benchmark series is missing, shorter than 200 bars, or
has its 50-day SMA at most its 200-day SMA at the latest bar, the CANSLIM
screen returns the empty result list for every per-instrument evaluation
function. -/
theorem canslim_market_gate_blocks {ρ : Type} (benchmark : Option (List ℚ))
    (tickers : List String) (screen : String → Option ρ)
    (h : ∀ closes, benchmark = some closes → 200 ≤ closes.length →
      ∃ a b, smaAt 50 closes (closes.length - 1) = some a ∧
        smaAt 200 closes (closes.length - 1) = some b ∧ a ≤ b) :
    canslim_screen benchmark tickers screen = [] := by
  unfold canslim_screen
  suffices hm : market_trend_ok benchmark = false by rw [hm]; simp
  unfold market_trend_ok
  cases benchmark with
  | none => rfl
  | some closes =>
    by_cases hl : closes.length < 200
    · simp [hl]
    · obtain ⟨a, b, h50, h200, hab⟩ := h closes rfl (le_of_not_lt hl)
      simp only [if_neg hl, h50, h200, oLT]
      exact decide_eq_false (not_lt.2 hab)

theorem canslim_market_gate_blocks_witness :
    canslim_screen (some (List.replicate 200 (100 : ℚ))) ["AAPL"]
      (fun _ => some (1 : ℕ)) = [] :=
  canslim_market_gate_blocks _ _ _ (by
    intro closes hc _
    injection hc with hc
    subst hc
    refine ⟨100, 100, ?_, ?_, le_refl 100⟩ <;>
      norm_num [smaAt, List.drop_replicate, List.take_replicate, List.sum_replicate,
        nsmul_eq_mul])

/-- C5 counterexample: with the default 30% threshold, `volume_spike`
passes on `vol50CE` although the 20-day average volume (130) exceeds the
50-day average volume (112) by only about 16%. -/
theorem volume_spike_counterexample :
    volume_spike vol50CE 20 50 30 = true ∧
      ¬ (30 ≤ (tailMean 20 vol50CE - tailMean 50 vol50CE) / tailMean 50 vol50CE * 100) := by
  constructor
  · norm_num [volume_spike, vol50CE, tailMean, List.drop_append_eq_append_drop,
      List.take_append_eq_append_take, List.drop_replicate, List.take_replicate,
      List.sum_append, List.sum_replicate, nsmul_eq_mul]
  · norm_num [tailMean, vol50CE, List.drop_append_eq_append_drop, List.drop_replicate,
      List.sum_append, List.sum_replicate, nsmul_eq_mul]

/-- C5 (amended): `volume_spike` fails for series shorter than 50 bars,
and for longer series with a positive baseline it passes exactly when the
20-day average volume is at least `(1 + pct/100)` times the average volume
of the 30 bars preceding the last 20. -/
theorem volume_spike_spec (v : List ℚ) (pct : ℚ) :
    (v.length < 50 → volume_spike v 20 50 pct = false) ∧
    (50 ≤ v.length → 0 < prior30Mean v →
      (volume_spike v 20 50 pct = true ↔
        prior30Mean v * (1 + pct / 100) ≤ tailMean 20 v)) := by
  constructor
  · intro h
    unfold volume_spike
    rw [if_pos h]
  · intro h50 hp
    have hne : ¬ v.length < 50 := not_lt.2 h50
    have hpe : prior30Mean v ≠ 0 := ne_of_gt hp
    have hprior : ((v.drop (v.length - 50)).take (50 - 20)).sum / (((50 - 20 : ℕ) : ℚ)) =
        prior30Mean v := by
      norm_num [prior30Mean]
    unfold volume_spike
    rw [if_neg hne]
    simp only [hprior]
    rw [if_neg hpe, decide_eq_true_eq, div_mul_eq_mul_div, le_div_iff₀ hp]
    constructor
    · intro hle
      nlinarith [hle, hp]
    · intro hle
      nlinarith [hle, hp]

theorem volume_spike_spec_witness :
    0 < prior30Mean vol50CE ∧
      (volume_spike vol50CE 20 50 15 = true ↔
        prior30Mean vol50CE * (1 + 15 / 100) ≤ tailMean 20 vol50CE) :=
  ⟨by norm_num [prior30Mean, vol50CE, List.drop_append_eq_append_drop, List.drop_replicate,
      List.take_append_eq_append_take, List.take_replicate, List.sum_append,
      List.sum_replicate, nsmul_eq_mul],
   (volume_spike_spec vol50CE 15).2 (by norm_num [vol50CE])
     (by norm_num [prior30Mean, vol50CE, List.drop_append_eq_append_drop, List.drop_replicate,
        List.take_append_eq_append_take, List.take_replicate, List.sum_append,
        List.sum_replicate, nsmul_eq_mul])⟩

/-- C10 counterexample: a single holder whose name matches two entries of
the reputable list passes the implemented gate, while only one holder from
the list is present. -/
theorem institutional_gate_counterexample :
    institutional_gate holdersCE = true ∧ ¬ claimed_institutional_gate holdersCE := by
  have hv : total_value holdersCE = 2000000000 := by
    norm_num [total_value, holdersCE]
  have hc : reputable_count holdersCE = 2 := by decide
  constructor
  · unfold institutional_gate
    rw [hv, hc]
    norm_num
  · rintro ⟨-, h2⟩
    have hl : (holdersCE.filter
        (fun h => reputable_names.any (fun rep => holder_matches rep h.1))).length = 1 := by
      decide
    rw [hl] at h2
    omega

/-- C10 (amended): the institutional-sponsorship gate passes exactly when
the aggregate holding value is at least $1B and at least two distinct
names of the fixed reputable list each match some holder by
case-insensitive substring. -/
theorem institutional_gate_spec (holders : List (String × ℚ)) :
    institutional_gate holders = true ↔
      (1000000000 ≤ total_value holders ∧
        ∃ r1 r2, r1 ∈ reputable_names ∧ r2 ∈ reputable_names ∧ r1 ≠ r2 ∧
          (∃ h ∈ holders, holder_matches r1 h.1 = true) ∧
          (∃ h ∈ holders, holder_matches r2 h.1 = true)) := by
  unfold institutional_gate reputable_count
  rw [Bool.and_eq_true, decide_eq_true_eq, decide_eq_true_eq]
  constructor
  · rintro ⟨hv, hc⟩
    refine ⟨hv, ?_⟩
    obtain ⟨a, b, ha, hb, hab⟩ := exists_pair_of_two_le_dedup hc
    rw [List.mem_dedup, List.mem_filter] at ha hb
    obtain ⟨ha1, ha2⟩ := ha
    obtain ⟨hb1, hb2⟩ := hb
    rw [List.any_eq_true] at ha2 hb2
    obtain ⟨x, hx, hxm⟩ := ha2
    obtain ⟨y, hy, hym⟩ := hb2
    exact ⟨a, b, ha1, hb1, hab, ⟨x, hx, hxm⟩, ⟨y, hy, hym⟩⟩
  · rintro ⟨hv, r1, r2, h1, h2, hne, ⟨x, hx, hxm⟩, ⟨y, hy, hym⟩⟩
    refine ⟨hv, ?_⟩
    have e1 : r1 ∈ (reputable_names.filter
        (fun rep => holders.any (fun h => holder_matches rep h.1))).dedup :=
      List.mem_dedup.2 (List.mem_filter.2 ⟨h1, List.any_eq_true.2 ⟨x, hx, hxm⟩⟩)
    have e2 : r2 ∈ (reputable_names.filter
        (fun rep => holders.any (fun h => holder_matches rep h.1))).dedup :=
      List.mem_dedup.2 (List.mem_filter.2 ⟨h2, List.any_eq_true.2 ⟨y, hy, hym⟩⟩)
    exact two_le_length_of_ne e1 e2 hne

theorem ewmaFrom_length (a y : ℚ) (l : List ℚ) : (ewmaFrom a y l).length = l.length := by
  induction l generalizing y with
  | nil => rfl
  | cons x xs ih => simp [ewmaFrom, ih]

theorem ewmaFrom_getD_succ (a : ℚ) (l : List ℚ) (y : ℚ) (i : ℕ) (h : i + 1 < l.length) :
    (ewmaFrom a y l).getD (i + 1) 0 =
      a * l.getD (i + 1) 0 + (1 - a) * (ewmaFrom a y l).getD i 0 := by
  induction l generalizing y i with
  | nil => simp at h
  | cons x xs ih =>
    cases i with
    | zero =>
      match xs, h with
      | z :: t, _ => simp [ewmaFrom]
    | succ j =>
      have hj : j + 1 < xs.length := by
        simp only [List.length_cons] at h
        omega
      simpa [ewmaFrom] using ih (a * x + (1 - a) * y) j hj

/-- C7: every EMA column computed by `compute_indicators` and
`calculate_macd` satisfies the `adjust=False` recursion — seeded by the
first observation of its input series, each later entry is
`α·x[i] + (1-α)·EMA[i-1]` with `α = 2/(span+1)`; in particular the EMA of
a length-1 series is that observation.  The MACD signal line is the
span-9 EMA of the MACD series. -/
theorem ema_recursion_spec (span : ℕ) (xs : List ℚ) :
    (ewma span xs).length = xs.length ∧
    (ewma span xs).getD 0 0 = xs.getD 0 0 ∧
    (∀ i, i + 1 < xs.length →
      (ewma span xs).getD (i + 1) 0 =
        2 / ((span : ℚ) + 1) * xs.getD (i + 1) 0 +
          (1 - 2 / ((span : ℚ) + 1)) * (ewma span xs).getD i 0) ∧
    (∀ c : ℚ, ewma span [c] = [c]) ∧
    (∀ d : BoraFrame, (compute_indicators d).1.ema21 = some (ewma 21 d.close) ∧
      (compute_indicators d).1.ema50 = some (ewma 50 d.close)) ∧
    signalLineCol xs = ewma 9 (macdCol xs) := by
  refine ⟨?_, ?_, ?_, fun c => rfl, fun d => ⟨rfl, rfl⟩, rfl⟩
  · cases xs with
    | nil => rfl
    | cons x l => simp [ewma, ewmaFrom_length]
  · cases xs with
    | nil => rfl
    | cons x l => rfl
  · intro i h
    cases xs with
    | nil => simp at h
    | cons x l =>
      cases i with
      | zero =>
        match l, h with
        | z :: t, _ => simp [ewma, ewmaFrom]
      | succ j =>
        have hj : j + 1 < l.length := by
          simp only [List.length_cons] at h
          omega
        simpa [ewma] using ewmaFrom_getD_succ (2 / ((span : ℚ) + 1)) l x j hj

theorem zipWithSub_replicate_shift (n : ℕ) (c : ℚ) :
    List.zipWith (fun a b => a - b) (List.replicate n c) (c :: List.replicate n c) =
      List.replicate n 0 := by
  induction n with
  | zero => rfl
  | succ m ih =>
    calc List.zipWith (fun a b => a - b) (c :: List.replicate m c)
          (c :: (c :: List.replicate m c)) =
        (c - c) :: List.zipWith (fun a b => a - b) (List.replicate m c)
          (c :: List.replicate m c) := rfl
      _ = List.replicate (m + 1) 0 := by
        rw [ih, sub_self, List.replicate_succ]

theorem diffs_replicate (n : ℕ) (c : ℚ) :
    diffs (List.replicate n c) = List.replicate (n - 1) 0 := by
  cases n with
  | zero => rfl
  | succ m =>
    show List.zipWith _ (c :: List.replicate m c).tail (c :: List.replicate m c) = _
    simp only [List.tail_cons, Nat.add_sub_cancel]
    exact zipWithSub_replicate_shift m c

theorem gains_replicate (n : ℕ) (c : ℚ) :
    gains (List.replicate n c) = List.replicate (n - 1 + 1) 0 := by
  rw [gains, diffs_replicate, List.map_replicate, List.replicate_succ]
  simp

theorem losses_replicate (n : ℕ) (c : ℚ) :
    losses (List.replicate n c) = List.replicate (n - 1 + 1) 0 := by
  rw [losses, diffs_replicate, List.map_replicate, List.replicate_succ]
  simp

theorem smaAt_replicate_zero (w m i : ℕ) :
    smaAt w (List.replicate m 0) i = if i + 1 < w then none else some 0 := by
  unfold smaAt
  split
  · rfl
  · rw [List.drop_replicate, List.take_replicate, List.sum_replicate, smul_zero, zero_div]

theorem sampleVarAt_replicate (n i : ℕ) (c : ℚ) :
    sampleVarAt 20 (List.replicate n c) i = if i + 1 < 20 then none else some 0 := by
  unfold sampleVarAt
  split
  · rfl
  · rw [List.drop_replicate, List.take_replicate]
    congr 1
    set k := min 20 (n - (i + 1 - 20)) with hkd
    by_cases hk : k = 0
    · rw [hk]
      simp
    · have hkq : (k : ℚ) ≠ 0 := by exact_mod_cast hk
      have hm : listMean (List.replicate k c) = c := by
        unfold listMean
        rw [List.sum_replicate, List.length_replicate, nsmul_eq_mul, mul_comm,
          mul_div_assoc, div_self hkq, mul_one]
      rw [hm, List.map_replicate, sub_self]
      norm_num

/-- C8: on a constant close series every entry of the hand-rolled RSI of
`stage2.py` is undefined — average gain and loss are both zero, so `rs`
is `0/0` — rather than an error, and wherever both Bollinger bands of
`buy_sell_signal.py` are defined their difference is zero. -/
theorem constant_series_rsi_bollinger (c : ℚ) (n : ℕ) :
    (∀ i, rsiAt (List.replicate n c) 14 i = none) ∧
    (∀ i u l, bollingerUpperAt (List.replicate n c) i = some u →
      bollingerLowerAt (List.replicate n c) i = some l → u - l = 0) := by
  have hstd : ∀ i, rollingStdAt 20 (List.replicate n c) i =
      if i + 1 < 20 then none else some (Real.sqrt ((0 : ℚ) : ℝ)) := by
    intro i
    unfold rollingStdAt
    rw [sampleVarAt_replicate]
    split <;> rfl
  constructor
  · intro i
    unfold rsiAt
    rw [gains_replicate, losses_replicate]
    simp only [smaAt_replicate_zero]
    by_cases h : i + 1 < 14
    · simp only [if_pos h]
    · simp only [if_neg h]
      norm_num
  · intro i u l hu hl
    unfold bollingerUpperAt at hu
    unfold bollingerLowerAt at hl
    rw [hstd] at hu hl
    by_cases hw : i + 1 < 20
    · rw [if_pos hw] at hu
      cases hsma : smaAt 20 (List.replicate n c) i <;> rw [hsma] at hu <;> cases hu
    · rw [if_neg hw] at hu hl
      cases hsma : smaAt 20 (List.replicate n c) i with
      | none => rw [hsma] at hu; cases hu
      | some m =>
        rw [hsma] at hu hl
        simp only [Option.some.injEq] at hu hl
        rw [← hu, ← hl, Rat.cast_zero, Real.sqrt_zero]
        ring

theorem foldl_min_replicate (n : ℕ) (a b : ℚ) :
    (List.replicate n a).foldl min b = if n = 0 then b else min b a := by
  induction n generalizing b with
  | zero => rfl
  | succ m ih =>
    rw [List.replicate_succ, List.foldl_cons, ih]
    split
    · simp
    · rw [min_assoc, min_self]
      simp

theorem foldl_max_replicate (n : ℕ) (a b : ℚ) :
    (List.replicate n a).foldl max b = if n = 0 then b else max b a := by
  induction n generalizing b with
  | zero => rfl
  | succ m ih =>
    rw [List.replicate_succ, List.foldl_cons, ih]
    split
    · simp
    · rw [max_assoc, max_self]
      simp

theorem stage2CE_length : stage2CE.length = 205 := by
  norm_num [stage2CE]

theorem stage2CE_getD : stage2CE.getD 204 0 = 120 := by decide

theorem stage2CE_sma50 : smaAt 50 stage2CE 204 = some (502 / 5) := by
  norm_num [smaAt, stage2CE, List.drop_append_eq_append_drop, List.take_append_eq_append_take,
    List.drop_replicate, List.take_replicate, List.sum_append, List.sum_replicate, nsmul_eq_mul]

theorem stage2CE_sma150 : smaAt 150 stage2CE 204 = some (1502 / 15) := by
  norm_num [smaAt, stage2CE, List.drop_append_eq_append_drop, List.take_append_eq_append_take,
    List.drop_replicate, List.take_replicate, List.sum_append, List.sum_replicate, nsmul_eq_mul]

theorem stage2CE_sma200 : smaAt 200 stage2CE 204 = some (1001 / 10) := by
  norm_num [smaAt, stage2CE, List.drop_append_eq_append_drop, List.take_append_eq_append_take,
    List.drop_replicate, List.take_replicate, List.sum_append, List.sum_replicate, nsmul_eq_mul]

theorem stage2CE_sma200_at200 : smaAt 200 stage2CE 200 = some (501 / 5) := by
  norm_num [smaAt, stage2CE, List.drop_append_eq_append_drop, List.take_append_eq_append_take,
    List.drop_replicate, List.take_replicate, List.sum_append, List.sum_replicate, nsmul_eq_mul]

theorem stage2CE_sma200_at199 : smaAt 200 stage2CE 199 = some (2001 / 20) := by
  norm_num [smaAt, stage2CE, List.drop_append_eq_append_drop, List.take_append_eq_append_take,
    List.drop_replicate, List.take_replicate, List.sum_append, List.sum_replicate, nsmul_eq_mul]

theorem stage2CE_diffs_drop : List.drop 190 (diffs stage2CE) =
    List.replicate 13 0 ++ [20] := by
  unfold diffs
  rw [List.drop_zipWith]
  have h1 : List.drop 190 stage2CE.tail = List.replicate 13 (100 : ℚ) ++ [120] := by
    norm_num [stage2CE, List.drop_append_eq_append_drop, List.drop_replicate]
  have h2 : List.drop 190 stage2CE = List.replicate 14 (100 : ℚ) ++ [120] := by
    norm_num [stage2CE, List.drop_append_eq_append_drop, List.drop_replicate]
  rw [h1, h2,
    show List.replicate 14 (100 : ℚ) = List.replicate 13 100 ++ [100] from
      List.replicate_succ' 13 100,
    List.append_assoc, List.zipWith_append _ _ _ _ _ (by simp)]
  congr 1
  · rw [List.zipWith_replicate]
    norm_num
  · norm_num [List.zipWith]

theorem stage2CE_avgGain : smaAt 14 (gains stage2CE) 204 = some (10 / 7) := by
  unfold smaAt gains
  rw [if_neg (by norm_num)]
  rw [show (204 + 1 - 14 : ℕ) = 191 from rfl, List.drop_succ_cons, ← List.map_drop,
    stage2CE_diffs_drop]
  norm_num [List.take_append_eq_append_take, List.take_replicate, List.map_append,
    List.map_replicate, List.sum_append, List.sum_replicate, nsmul_eq_mul]

theorem stage2CE_avgLoss : smaAt 14 (losses stage2CE) 204 = some 0 := by
  unfold smaAt losses
  rw [if_neg (by norm_num)]
  rw [show (204 + 1 - 14 : ℕ) = 191 from rfl, List.drop_succ_cons, ← List.map_drop,
    stage2CE_diffs_drop]
  norm_num [List.take_append_eq_append_take, List.take_replicate, List.map_append,
    List.map_replicate, List.sum_append, List.sum_replicate, nsmul_eq_mul]

theorem stage2CE_rsi : rsiAt stage2CE 14 204 = some 100 := by
  unfold rsiAt
  rw [stage2CE_avgGain, stage2CE_avgLoss]
  norm_num

theorem stage2CE_gate3 : trendGate3 stage2CE = false := by
  unfold trendGate3
  rw [stage2CE_length]
  rw [show (205 - 5 : ℕ) = 200 from rfl, show (205 - 1 : ℕ) = 204 from rfl,
    stage2CE_sma200_at200, stage2CE_sma200]
  simp only [oLT]
  norm_num

theorem stage2CE_check : check_trend_template stage2CE = false := by
  have hne : stage2CE.isEmpty = false := rfl
  simp only [check_trend_template, stage2CE_length, hne]
  norm_num [stage2CE_getD, stage2CE_sma50, stage2CE_sma150, stage2CE_sma200,
    stage2CE_rsi, stage2CE_gate3]

/-- C2 counterexample: on `stage2CE` every hypothesis of the claim holds
(at least 200 bars, all moving averages and RSI defined, gates 1 and 2
pass) and the 200-day SMA at the latest bar exceeds its value five bars
earlier, yet the implemented third gate — which compares against the
fifth-from-last SMA entry, only four bars earlier — fails and the check
returns `False`. -/
theorem stage2_gate3_counterexample :
    200 ≤ stage2CE.length ∧
    stage2CE.getD (stage2CE.length - 1) 0 = 120 ∧
    smaAt 50 stage2CE (stage2CE.length - 1) = some (502 / 5) ∧
    smaAt 150 stage2CE (stage2CE.length - 1) = some (1502 / 15) ∧
    smaAt 200 stage2CE (stage2CE.length - 1) = some (1001 / 10) ∧
    rsiAt stage2CE 14 (stage2CE.length - 1) = some 100 ∧
    ((1502 / 15 : ℚ) < 120 ∧ (1001 / 10 : ℚ) < 120) ∧
    ((1001 / 10 : ℚ) < 1502 / 15) ∧
    oLT (smaAt 200 stage2CE (stage2CE.length - 1 - 5))
      (smaAt 200 stage2CE (stage2CE.length - 1)) = true ∧
    trendGate3 stage2CE = false ∧
    check_trend_template stage2CE = false := by
  rw [stage2CE_length]
  refine ⟨by norm_num, stage2CE_getD, stage2CE_sma50, stage2CE_sma150, stage2CE_sma200,
    stage2CE_rsi, by norm_num, by norm_num, ?_, stage2CE_gate3, stage2CE_check⟩
  rw [show (205 - 1 - 5 : ℕ) = 199 from rfl, show (205 - 1 : ℕ) = 204 from rfl,
    stage2CE_sma200_at199, stage2CE_sma200]
  simp only [oLT]
  norm_num

/-- C2 (amended): once the trend-template check reaches its third gate, the
gate passes exactly when the 200-day SMA at the latest bar is strictly
greater than the fifth-from-last SMA entry — its value four bars earlier,
not five — and the check returns `False` whenever that gate fails. -/
theorem check_trend_template_gate3_spec (closes : List ℚ) (c m50 m150 m200 r : ℚ)
    (hn : 200 ≤ closes.length)
    (hc : closes.getD (closes.length - 1) 0 = c)
    (h50 : smaAt 50 closes (closes.length - 1) = some m50)
    (h150 : smaAt 150 closes (closes.length - 1) = some m150)
    (h200 : smaAt 200 closes (closes.length - 1) = some m200)
    (hr : rsiAt closes 14 (closes.length - 1) = some r)
    (g1 : m150 < c ∧ m200 < c) (g2 : m200 < m150) :
    (trendGate3 closes = true ↔
      ∃ a, smaAt 200 closes (closes.length - 5) = some a ∧ a < m200) ∧
    (trendGate3 closes = false → check_trend_template closes = false) := by
  constructor
  · unfold trendGate3
    rw [h200]
    cases h5 : smaAt 200 closes (closes.length - 5) with
    | none => simp [oLT]
    | some a => simp [oLT]
  · intro hg3
    have hne : closes.isEmpty = false := by
      cases closes
      · simp at hn
      · rfl
    simp only [check_trend_template, hne, h50, h150, h200, hr, hc]
    rw [if_pos g1, if_pos g2, hg3]
    simp

theorem check_trend_template_gate3_spec_witness :
    (trendGate3 stage2CE = true ↔
      ∃ a, smaAt 200 stage2CE (stage2CE.length - 5) = some a ∧ a < 1001 / 10) ∧
    (trendGate3 stage2CE = false → check_trend_template stage2CE = false) :=
  check_trend_template_gate3_spec stage2CE 120 (502 / 5) (1502 / 15) (1001 / 10) 100
    (by rw [stage2CE_length]; norm_num)
    (by rw [stage2CE_length]; exact stage2CE_getD)
    (by rw [stage2CE_length]; exact stage2CE_sma50)
    (by rw [stage2CE_length]; exact stage2CE_sma150)
    (by rw [stage2CE_length]; exact stage2CE_sma200)
    (by rw [stage2CE_length]; exact stage2CE_rsi)
    (by norm_num) (by norm_num)

theorem check_signal_eq_buy (r : SigRow) (prox : ℝ) :
    check_signal r prox = "Buy" ↔
      trendHold r = false ∧ volumeHold r = false ∧ buyCond r prox = true := by
  unfold check_signal
  by_cases h1 : trendHold r <;> by_cases h2 : volumeHold r <;>
    by_cases h3 : buyCond r prox <;> by_cases h4 : sellCond r prox <;>
    simp [h1, h2, h3, h4]

theorem buyCond_iff (r : SigRow) (prox : ℝ) :
    buyCond r prox = true ↔
      ∃ c lb rs k ps, r.close = some c ∧ r.bollingerLower = some lb ∧ r.rsi = some rs ∧
        r.stochK = some k ∧ r.psar = some ps ∧
        (c : ℝ) ≤ (lb : ℝ) * (1 + prox) ∧ 30 < rs ∧ k < 20 ∧ ps < c := by
  unfold buyCond
  cases hc : r.close with
  | none => simp [hc]
  | some c =>
    cases hlb : r.bollingerLower with
    | none => simp [hlb]
    | some lb =>
      cases hrs : r.rsi with
      | none => simp [hrs]
      | some rs =>
        cases hk : r.stochK with
        | none => simp [oLT, hk]
        | some k =>
          cases hps : r.psar with
          | none => simp [oLT, hps]
          | some ps => simp [oLE, oLT, hc, hlb, hrs, hk, hps, and_assoc]

theorem trendHold_eq_false_iff (r : SigRow) (c : ℚ) (hc : r.close = some c) :
    trendHold r = false ↔ (∀ m, r.movingAvg200 = some m → m ≠ 0 → m ≤ c) := by
  unfold trendHold
  cases hm : r.movingAvg200 with
  | none => simp [truthy, oLT, hc, hm]
  | some m =>
    simp only [truthy, oLT, hc, hm, Bool.and_eq_false_iff, decide_eq_false_iff_not,
      not_not, not_lt]
    constructor
    · rintro (h0 | hle) m' hm' hne
      · cases Option.some.inj hm'
        exact absurd h0 hne
      · cases Option.some.inj hm'
        exact hle
    · intro h
      by_cases h0 : m = 0
      · exact Or.inl h0
      · exact Or.inr (h m rfl h0)

theorem volumeHold_eq_false_iff (r : SigRow) :
    volumeHold r = false ↔
      (∀ av v, r.avgVolume = some av → r.volume = some v → av * (12 / 10) ≤ v) := by
  unfold volumeHold
  cases havg : r.avgVolume with
  | none => simp [havg]
  | some av =>
    cases hv : r.volume with
    | none => simp [oLT, hv, havg]
    | some v =>
      simp only [oLT, hv, havg, Option.map_some', Option.isSome_some, Bool.true_and,
        decide_eq_false_iff_not, not_lt]
      constructor
      · rintro h av' v' hav' hv'
        exact (Option.some.inj hav') ▸ (Option.some.inj hv') ▸ h
      · intro h
        exact h av v rfl rfl

theorem latestSignal_getLast (rows : List SigRow) (r : SigRow) (h : rows.getLast? = some r) :
    latestSignal rows =
      some (check_signal r (proximityOf (rows.map SigRow.close))) := by
  unfold latestSignal signal_strategy
  rw [List.getLast?_map, h]
  rfl

/-- C1: evaluation at the failing input — every claimed Sell precondition
holds on `rowSellBlocked` (volume 2× its average, close at the upper band,
RSI 50, MACD below the signal line), yet the evaluator returns Hold: the
200-day-SMA trend filter, whose comment says it should only suppress Buy
signals in a downtrend, returns Hold before the Sell branch is reached. -/
theorem sell_blocked_by_trend_filter :
    claimedSell rowSellBlocked (proximityOf ([rowSellBlocked].map SigRow.close)) ∧
    latestSignal [rowSellBlocked] = some "Hold" := by
  constructor
  · have hp : proximityOf ([rowSellBlocked].map SigRow.close) = 2 / 100 := rfl
    rw [hp]
    refine ⟨100, 100, 50, -1, 0, 50, 50, 100, 200, rfl, rfl, rfl, rfl, rfl, rfl, rfl,
      rfl, rfl, by norm_num, by norm_num, by norm_num, Or.inl (by norm_num)⟩
  · rw [latestSignal_getLast [rowSellBlocked] rowSellBlocked rfl]
    have ht : trendHold rowSellBlocked = true := by decide
    unfold check_signal
    rw [ht]
    rfl

/-- C3 counterexample: on a frame whose latest bar has an undefined 200-day
SMA the evaluator returns Buy, while the claimed characterization (which
requires `close ≥ 200-day SMA` and forces Hold on any undefined indicator)
does not hold. -/
theorem buy_without_ma200_counterexample :
    latestSignal [rowBuyNoMa] = some "Buy" ∧
    ¬ claimedBuy rowBuyNoMa (proximityOf ([rowBuyNoMa].map SigRow.close)) := by
  constructor
  · rw [latestSignal_getLast [rowBuyNoMa] rowBuyNoMa rfl]
    have hp : proximityOf ([rowBuyNoMa].map SigRow.close) = 2 / 100 := rfl
    rw [hp]
    have ht : trendHold rowBuyNoMa = false := by decide
    have hv : volumeHold rowBuyNoMa = false := by
      rw [volumeHold_eq_false_iff]
      rintro av v hav hv
      cases Option.some.inj hav
      cases Option.some.inj hv
      norm_num
    have hb : buyCond rowBuyNoMa (2 / 100) = true := by
      rw [buyCond_iff]
      refine ⟨100, 100, 50, 10, 90, rfl, rfl, rfl, rfl, rfl, by norm_num, by norm_num,
        by norm_num, by norm_num⟩
    unfold check_signal
    rw [ht, hv, hb]
    rfl
  · rintro ⟨c, lb, rs, k, ps, m, av, v, -, -, -, -, -, hm, -⟩
    simp [rowBuyNoMa] at hm

/-- C3 (amended): the evaluator returns Buy at the latest bar iff close,
Bollinger Lower, RSI, %K and PSAR are defined with
`close ≤ BollingerLower·(1+proximity)`, `RSI > 30`, `%K < 20` and
`close > PSAR`, the 200-day SMA — when defined and nonzero — is at most
close, and volume is at least 1.2× the 20-day average volume whenever that
average is defined; an undefined 200-day SMA or average volume does not
force Hold. -/
theorem signal_strategy_buy_spec (rows : List SigRow) (r : SigRow)
    (h : rows.getLast? = some r) :
    latestSignal rows = some "Buy" ↔
      amendedBuy r (proximityOf (rows.map SigRow.close)) := by
  rw [latestSignal_getLast rows r h, Option.some_inj, check_signal_eq_buy]
  constructor
  · rintro ⟨h1, h2, h3⟩
    obtain ⟨c, lb, rs, k, ps, hc, hlb, hrs, hk, hps, hle, h30, h20, hpc⟩ :=
      (buyCond_iff r _).1 h3
    exact ⟨c, lb, rs, k, ps, hc, hlb, hrs, hk, hps, hle, h30, h20, hpc,
      (trendHold_eq_false_iff r c hc).1 h1, (volumeHold_eq_false_iff r).1 h2⟩
  · rintro ⟨c, lb, rs, k, ps, hc, hlb, hrs, hk, hps, hle, h30, h20, hpc, hma, hvol⟩
    exact ⟨(trendHold_eq_false_iff r c hc).2 hma, (volumeHold_eq_false_iff r).2 hvol,
      (buyCond_iff r _).2 ⟨c, lb, rs, k, ps, hc, hlb, hrs, hk, hps, hle, h30, h20, hpc⟩⟩

theorem signal_strategy_buy_spec_witness :
    latestSignal [rowBuyOk] = some "Buy" ↔
      amendedBuy rowBuyOk (proximityOf ([rowBuyOk].map SigRow.close)) :=
  signal_strategy_buy_spec [rowBuyOk] rowBuyOk rfl

theorem smaAt_isSome (w : ℕ) (xs : List ℚ) (i : ℕ) :
    (smaAt w xs i).isSome = decide (w ≤ i + 1) := by
  unfold smaAt
  split <;> rename_i h
  · rw [Option.isSome_none, eq_comm, decide_eq_false_iff_not]
    omega
  · rw [Option.isSome_some, eq_comm, decide_eq_true_eq]
    omega

theorem filter_range_le (n k : ℕ) :
    (List.range n).filter (fun i => decide (k ≤ i)) = List.range' k (n - k) := by
  induction n with
  | zero => simp
  | succ m ih =>
    rw [List.range_succ, List.filter_append, ih]
    by_cases h : k ≤ m
    · have h2 : m + 1 - k = (m - k) + 1 := by omega
      rw [h2, List.range'_concat]
      have h3 : k + 1 * (m - k) = m := by omega
      rw [h3]
      congr 1
      simp [h]
    · have h2 : m + 1 - k = 0 := by omega
      have h3 : m - k = 0 := by omega
      rw [h2, h3]
      simp [h]

theorem keepIdx_eq (closes : List ℚ) :
    keepIdx closes = List.range' 199 (closes.length - 199) := by
  unfold keepIdx
  rw [← filter_range_le]
  apply List.filter_congr
  intro i _
  rw [smaAt_isSome, smaAt_isSome]
  by_cases h : 199 ≤ i
  · have h1 : 50 ≤ i + 1 := by omega
    have h2 : 200 ≤ i + 1 := by omega
    simp [h, h1, h2]
  · have h2 : ¬ 200 ≤ i + 1 := by omega
    simp [h, h2]

theorem keepIdx_length (closes : List ℚ) :
    (keepIdx closes).length = closes.length - 199 := by
  rw [keepIdx_eq, List.length_range']

/-- C9 counterexample: `bollinger_bands` writes its columns into the
caller's frame in place — a frame without the band columns is changed by
the call. -/
theorem bollinger_mutates_counterexample :
    (bollinger_bands { close := [1] }).2 ≠ ({ close := [1] } : BSFrame) := by
  intro h
  have h2 := congrArg BSFrame.bollingerUpper h
  simp [bollinger_bands] at h2

/-- C9 (amended): `compute_indicators` copies its frame and is
side-effect-free on the caller's frame; `bollinger_bands` mutates the
caller's frame by writing the three band columns, leaving the close data
and row count untouched; `detect_golden_cross` leaves the frame unchanged
below 200 bars but otherwise writes the moving-average columns into the
caller's frame and drops its first 199 rows. -/
theorem frame_effects_spec :
    (∀ d : BoraFrame, (compute_indicators d).2 = d) ∧
    (∀ d : BSFrame, (bollinger_bands d).2.close = d.close ∧
      (bollinger_bands d).2.bollingerUpper =
        some ((List.range d.close.length).map (bollingerUpperAt d.close)) ∧
      (bollinger_bands d).2.bollingerLower =
        some ((List.range d.close.length).map (bollingerLowerAt d.close)) ∧
      (bollinger_bands d).2.rollingMean =
        some ((List.range d.close.length).map (smaAt 20 d.close))) ∧
    (∀ (f : GCFrame) (now : ℤ), f.close.length < 200 →
      (detect_golden_cross f now).2 = f) ∧
    (∀ (f : GCFrame) (now : ℤ), 200 ≤ f.close.length →
      (detect_golden_cross f now).2.ma50.isSome = true ∧
      (detect_golden_cross f now).2.close.length = f.close.length - 199) := by
  refine ⟨fun d => rfl, fun d => ⟨rfl, rfl, rfl, rfl⟩, ?_, ?_⟩
  · intro f now h
    unfold detect_golden_cross
    rw [if_pos h]
  · intro f now h
    unfold detect_golden_cross
    rw [if_neg (not_lt.2 h)]
    exact ⟨rfl, by simp [keepIdx_length]⟩

theorem gcTimes_length (f : GCFrame) : (gcTimes f).length = f.close.length - 199 := by
  simp [gcTimes, keepIdx_length]

theorem gcSig_length (closes : List ℚ) : (gcSig closes).length = closes.length - 199 := by
  simp [gcSig, keepIdx_length]

theorem gcCross_length (closes : List ℚ) (h : 200 ≤ closes.length) :
    (gcCross closes).length = closes.length - 199 := by
  rw [gcCross, List.length_cons, List.length_zipWith, List.length_tail, gcSig_length]
  omega

theorem gcSig_getElem (closes : List ℚ) (j : ℕ) {h : j < (gcSig closes).length} :
    (gcSig closes)[j] = gcSigf closes (199 + j) := by
  simp only [gcSig, keepIdx_eq] at h ⊢
  rw [List.getElem_map, List.getElem_range', one_mul]

theorem gcTimes_getElem (f : GCFrame) (j : ℕ) {h : j < (gcTimes f).length} :
    (gcTimes f)[j] = f.times.getD (199 + j) 0 := by
  simp only [gcTimes, keepIdx_eq] at h ⊢
  rw [List.getElem_map, List.getElem_range', one_mul]

theorem gcCross_getElem_zero (closes : List ℚ) {h : 0 < (gcCross closes).length} :
    (gcCross closes)[0] = none := rfl

theorem gcCross_getElem_succ (closes : List ℚ) (j : ℕ)
    {h : j + 1 < (gcCross closes).length} :
    (gcCross closes)[j + 1] =
      some (gcSigf closes (199 + (j + 1)) - gcSigf closes (199 + j)) := by
  simp only [gcCross, List.getElem_cons_succ, List.getElem_zipWith, List.getElem_tail]
  rw [gcSig_getElem, gcSig_getElem]

theorem any_zip_eq_true {α β : Type} (p : α × β → Bool) (a : List α) (b : List β) :
    ((a.zip b).any p = true) ↔
      ∃ j, ∃ (h1 : j < a.length) (h2 : j < b.length), p (a[j], b[j]) = true := by
  rw [List.any_eq_true]
  constructor
  · rintro ⟨x, hx, hp⟩
    rw [List.mem_iff_getElem] at hx
    obtain ⟨j, hj, hxe⟩ := hx
    have hj2 := hj
    rw [List.length_zip, lt_min_iff] at hj2
    refine ⟨j, hj2.1, hj2.2, ?_⟩
    rw [List.getElem_zip] at hxe
    rw [← hxe] at hp
    exact hp
  · rintro ⟨j, h1, h2, hp⟩
    refine ⟨(a[j], b[j]), ?_, hp⟩
    rw [List.mem_iff_getElem]
    refine ⟨j, ?_, ?_⟩
    · rw [List.length_zip, lt_min_iff]
      exact ⟨h1, h2⟩
    · rw [List.getElem_zip]

theorem sig_sub_eq_one {A B : Bool} (hd :
    (if A = true then (1 : ℤ) else 0) - (if B = true then 1 else 0) = 1) :
    A = true ∧ B = false := by
  cases A <;> cases B <;> simp_all

theorem detect_golden_cross_true_iff (f : GCFrame) (now : ℤ) (h : 200 ≤ f.close.length) :
    (detect_golden_cross f now).1 = true ↔ crossInWindow f.times f.close now := by
  unfold detect_golden_cross
  rw [if_neg (not_lt.2 h)]
  show (((gcTimes f).zip (gcCross f.close)).any
      (fun p => decide (now - 7 ≤ p.1) && p.2 == some 1)) = true ↔ _
  rw [any_zip_eq_true]
  unfold crossInWindow
  constructor
  · rintro ⟨j, h1, h2, hp⟩
    simp only [Bool.and_eq_true, decide_eq_true_eq, beq_iff_eq] at hp
    cases j with
    | zero =>
      rw [gcCross_getElem_zero] at hp
      simp at hp
    | succ j =>
      rw [gcTimes_getElem, gcCross_getElem_succ] at hp
      obtain ⟨hpt, hpc⟩ := hp
      have hd := Option.some.inj hpc
      unfold gcSigf at hd
      obtain ⟨hA, hB⟩ := sig_sub_eq_one hd
      have h1' : j + 1 < f.close.length - 199 := by rwa [gcTimes_length] at h1
      refine ⟨199 + (j + 1), by omega, by omega, hA, ?_, hpt⟩
      rw [show 199 + (j + 1) - 1 = 199 + j from by omega]
      exact hB
  · rintro ⟨i, hi2, hin, hsA, hsB, hti⟩
    refine ⟨(i - 200) + 1, ?_, ?_, ?_⟩
    · rw [gcTimes_length]
      omega
    · rw [gcCross_length _ h]
      omega
    · simp only [Bool.and_eq_true, decide_eq_true_eq, beq_iff_eq]
      rw [gcTimes_getElem, gcCross_getElem_succ,
        show 199 + ((i - 200) + 1) = i from by omega,
        show 199 + (i - 200) = i - 1 from by omega]
      refine ⟨hti, ?_⟩
      unfold gcSigf
      rw [hsA, hsB]
      simp

theorem smaAt_take (w : ℕ) (xs : List ℚ) (i m : ℕ) (him : i ≤ m) :
    smaAt w (xs.take (m + 1)) i = smaAt w xs i := by
  unfold smaAt
  split
  · rfl
  · rename_i hw
    rw [List.drop_take, List.take_take, show (w ⊓ (m + 1 - (i + 1 - w))) = w from by omega]

theorem getD_map_range_add (t0 : ℤ) (n i : ℕ) (h : i < n) :
    ((List.range n).map (fun j : ℕ => t0 + (j : ℤ))).getD i 0 = t0 + i := by
  rw [List.getD_eq_getElem _ _ (by simpa using h), List.getElem_map, List.getElem_range]

/-- The frame on which the Golden Cross detector is evaluated on bar `m` of
an engineered series: consecutive calendar-day timestamps starting at `t0`
and the closes up to bar `m`. -/
def gcEngFrame (closes : List ℚ) (t0 : ℤ) (m : ℕ) : GCFrame :=
  { times := (List.range (m + 1)).map (fun j : ℕ => t0 + (j : ℤ)),
    close := closes.take (m + 1) }

/-- C6: `detect_golden_cross` returns false for series shorter than 200
bars; for longer series it returns true exactly when the boolean
`MA50 > MA200` indicator transitions from 0 to 1 on a bar whose timestamp
lies within the trailing 7 calendar days of the evaluation time; and on a
series engineered so the 50-SMA crosses above the 200-SMA exactly on bar
`N`, evaluation on bars `N` through `N+6` returns true while evaluation
before bar `N` or on bar `N+8` and later returns false. -/
theorem golden_cross_spec :
    (∀ (f : GCFrame) (now : ℤ), f.close.length < 200 →
      (detect_golden_cross f now).1 = false) ∧
    (∀ (f : GCFrame) (now : ℤ), 200 ≤ f.close.length →
      ((detect_golden_cross f now).1 = true ↔ crossInWindow f.times f.close now)) ∧
    (∀ (closes : List ℚ) (t0 : ℤ) (N : ℕ), 200 ≤ N →
      (∀ i, 199 ≤ i → i < closes.length →
        oLT (smaAt 200 closes i) (smaAt 50 closes i) = decide (N ≤ i)) →
      ∀ m, m < closes.length →
        ((N ≤ m → m ≤ N + 6 →
          (detect_golden_cross (gcEngFrame closes t0 m) (t0 + m)).1 = true) ∧
         (m < N → (detect_golden_cross (gcEngFrame closes t0 m) (t0 + m)).1 = false) ∧
         (N + 8 ≤ m →
          (detect_golden_cross (gcEngFrame closes t0 m) (t0 + m)).1 = false))) := by
  have hpart1 : ∀ (f : GCFrame) (now : ℤ), f.close.length < 200 →
      (detect_golden_cross f now).1 = false := by
    intro f now hl
    unfold detect_golden_cross
    rw [if_pos hl]
  refine ⟨hpart1, fun f now h => detect_golden_cross_true_iff f now h, ?_⟩
  intro closes t0 N hN hsig m hm
  have hlen : (List.take (m + 1) closes).length = m + 1 := by
    rw [List.length_take]
    omega
  refine ⟨?_, ?_, ?_⟩
  · intro hNm hm6
    have h200 : 200 ≤ (gcEngFrame closes t0 m).close.length := by
      show 200 ≤ (List.take (m + 1) closes).length
      omega
    rw [detect_golden_cross_true_iff _ _ h200]
    refine ⟨N, by omega, ?_, ?_, ?_, ?_⟩
    · show N < (List.take (m + 1) closes).length
      omega
    · show oLT (smaAt 200 (List.take (m + 1) closes) N)
        (smaAt 50 (List.take (m + 1) closes) N) = true
      rw [smaAt_take _ _ _ _ (by omega), smaAt_take _ _ _ _ (by omega),
        hsig N (by omega) (by omega)]
      simp
    · show oLT (smaAt 200 (List.take (m + 1) closes) (N - 1))
        (smaAt 50 (List.take (m + 1) closes) (N - 1)) = false
      rw [smaAt_take _ _ _ _ (by omega), smaAt_take _ _ _ _ (by omega),
        hsig (N - 1) (by omega) (by omega)]
      simp only [decide_eq_false_iff_not]
      omega
    · show t0 + (m : ℤ) - 7 ≤
        ((List.range (m + 1)).map (fun j : ℕ => t0 + (j : ℤ))).getD N 0
      rw [getD_map_range_add _ _ _ (by omega)]
      have : (N : ℤ) + 7 ≥ (m : ℤ) := by exact_mod_cast by omega
      omega
  · intro hmN
    by_cases hsmall : (gcEngFrame closes t0 m).close.length < 200
    · exact hpart1 _ _ hsmall
    · rcases hb : (detect_golden_cross (gcEngFrame closes t0 m) (t0 + m)).1 with _ | _
      · rfl
      · exfalso
        obtain ⟨i, hi2, hin, hsA, hsB, hti⟩ :=
          (detect_golden_cross_true_iff _ _ (le_of_not_lt hsmall)).1 hb
        have hin' : i < m + 1 := by
          rw [show (gcEngFrame closes t0 m).close = List.take (m + 1) closes from rfl,
            hlen] at hin
          exact hin
        rw [show (gcEngFrame closes t0 m).close = List.take (m + 1) closes from rfl,
          smaAt_take _ _ _ _ (by omega), smaAt_take _ _ _ _ (by omega),
          hsig i (by omega) (by omega)] at hsA
        rw [decide_eq_true_eq] at hsA
        omega
  · intro hm8
    have h200 : 200 ≤ (gcEngFrame closes t0 m).close.length := by
      show 200 ≤ (List.take (m + 1) closes).length
      omega
    rcases hb : (detect_golden_cross (gcEngFrame closes t0 m) (t0 + m)).1 with _ | _
    · rfl
    · exfalso
      obtain ⟨i, hi2, hin, hsA, hsB, hti⟩ :=
        (detect_golden_cross_true_iff _ _ h200).1 hb
      have hin' : i < m + 1 := by
        rw [show (gcEngFrame closes t0 m).close = List.take (m + 1) closes from rfl,
          hlen] at hin
        exact hin
      rw [show (gcEngFrame closes t0 m).close = List.take (m + 1) closes from rfl,
        smaAt_take _ _ _ _ (by omega), smaAt_take _ _ _ _ (by omega),
        hsig i (by omega) (by omega)] at hsA
      rw [show (gcEngFrame closes t0 m).close = List.take (m + 1) closes from rfl,
        smaAt_take _ _ _ _ (by omega), smaAt_take _ _ _ _ (by omega),
        hsig (i - 1) (by omega) (by omega)] at hsB
      rw [decide_eq_true_eq] at hsA
      rw [decide_eq_false_iff_not] at hsB
      have hiN : i = N := by omega
      rw [show (gcEngFrame closes t0 m).times =
          (List.range (m + 1)).map (fun j : ℕ => t0 + (j : ℤ)) from rfl,
        getD_map_range_add _ _ _ (by omega), hiN] at hti
      have hmN2 : (N : ℤ) + 8 ≤ (m : ℤ) := by exact_mod_cast hm8
      omega

end StockAnalizer
